import Mathlib

/-!
Verification of the data-synchronization core of a token-market dashboard
client (scanner table): the update buffer and merge engine
(`useTable` / `processUpdates`), the snapshot selector
(`useGetScannerInfiniteQuery.select`), the subscription registry and its
reconciliation (`subscribe`), and the reconnecting websocket transport
(`useWebSocket`).  JavaScript `Map`s and plain string-keyed objects are
embedded as association lists with insertion-order semantics; decimal
arithmetic is embedded as exact rational arithmetic.
-/

namespace Dexcelerate

/-! ## Association lists: the embedding of JS `Map` / string-keyed objects -/

/-- Lookup, mirroring `Map.get` / `obj[key]`. -/
def alGet {α : Type} (l : List (String × α)) (k : String) : Option α :=
  (l.find? (fun p => p.1 == k)).map (fun p => p.2)

/-- Membership test, mirroring `Map.has` / `key in obj`. -/
def alHas {α : Type} (l : List (String × α)) (k : String) : Bool :=
  (l.find? (fun p => p.1 == k)).isSome

/-- Insert-or-overwrite, mirroring `Map.set` / object assignment: an existing
key keeps its position and gets the new value, a fresh key is appended. -/
def alSet {α : Type} (l : List (String × α)) (k : String) (v : α) : List (String × α) :=
  if alHas l k then l.map (fun p => if p.1 == k then (k, v) else p) else l ++ [(k, v)]

/-- Key removal, mirroring `Map.delete`. -/
def alDelete {α : Type} (l : List (String × α)) (k : String) : List (String × α) :=
  l.filter (fun p => ! (p.1 == k))

/-- Key list, mirroring `Map.keys()` (insertion order). -/
def alKeys {α : Type} (l : List (String × α)) : List String :=
  l.map (fun p => p.1)

/-! ## Data model

Rows as stored in the infinite-query cache (`ScannerResult` shape, the fields
the merge engine reads and writes), the tick payload (`TickEventPayload`),
the stats payload (`PairStatsMsgData`), and the display row (`TokenData`)
produced by `convertToTokenData`.  String-encoded decimal fields are carried
as rationals. -/

/-- One trade of a tick batch (`WsTokenSwap`). -/
structure WsTokenSwap where
  priceToken1Usd : ℚ
  amountToken1 : ℚ
  tokenInAddress : String
  isOutlier : Bool
deriving DecidableEq

/-- The `pair` object of a tick message. -/
structure TickPair where
  pair : String
  token : String
  chain : String
deriving DecidableEq

/-- Payload of a `tick` event. -/
structure TickEventPayload where
  pair : TickPair
  swaps : List WsTokenSwap
deriving DecidableEq

/-- One timeframe entry of `pairStats`. -/
structure PairStatsTimeframe where
  diff : ℚ
deriving DecidableEq

/-- The four fixed timeframes of a `pair-stats` message. -/
structure PairStatsAll where
  fiveMin : PairStatsTimeframe
  oneHour : PairStatsTimeframe
  sixHour : PairStatsTimeframe
  twentyFourHour : PairStatsTimeframe
deriving DecidableEq

/-- The `pair` object of a `pair-stats` message. -/
structure PairStatsPairInfo where
  pairAddress : String
  mintAuthorityRenounced : Bool
  freezeAuthorityRenounced : Bool
  token1IsHoneypot : Bool
  isVerified : Bool
  dexPaid : Bool
  linkDiscord : Option String
  linkTelegram : Option String
  linkTwitter : Option String
  linkWebsite : Option String
deriving DecidableEq

/-- Payload of a `pair-stats` event (`PairStatsMsgData`). -/
structure PairStatsMsgData where
  pair : PairStatsPairInfo
  pairStats : PairStatsAll
  migrationProgress : ℚ
deriving DecidableEq

/-- A raw scanner row as held in the query cache (the fields used by the
merge engine and by `convertToTokenData`). -/
structure ScannerResult where
  pairAddress : String
  token1Address : String
  token1TotalSupplyFormatted : ℚ
  price : ℚ
  volume : ℚ
  currentMcap : ℚ
  initialMcap : ℚ
  pairMcapUsd : ℚ
  pairMcapUsdInitial : ℚ
  buys : Option ℕ
  sells : Option ℕ
  diff5M : ℚ
  diff1H : ℚ
  diff6H : ℚ
  diff24H : ℚ
  migrationProgress : ℚ
  isMintAuthDisabled : Bool
  isFreezeAuthDisabled : Bool
  honeyPot : Bool
  contractVerified : Bool
  dexPaid : Bool
  discordLink : Option String
  telegramLink : Option String
  twitterLink : Option String
  webLink : Option String
  chainId : Int
deriving DecidableEq

/-- Display row (the fields of `TokenData` that the subscription layer and
the identity index use). -/
structure TokenData where
  id : String
  pairAddress : String
  tokenAddress : String
  chain : String
  totalSupply : ℚ
  dexPaid : Bool
deriving DecidableEq

/-- Modelled from the spec: `chainIdToName` lives in `src/scheme/type.ts`,
which is not under `src/`; reconstructed from its unit tests
(1 → ETH, 56 → BSC, 8453 → BASE, 900 → SOL, anything else → ETH). -/
def chainIdToName (chainId : Int) : String :=
  if chainId = 1 then "ETH"
  else if chainId = 56 then "BSC"
  else if chainId = 8453 then "BASE"
  else if chainId = 900 then "SOL"
  else "ETH"

/-- `calculateMarketCap` of `tokenUtils.ts`: first positive of
`currentMcap`, `initialMcap`, `pairMcapUsd`, `pairMcapUsdInitial`, else 0. -/
def calculateMarketCap (result : ScannerResult) : ℚ :=
  if result.currentMcap > 0 then result.currentMcap
  else if result.initialMcap > 0 then result.initialMcap
  else if result.pairMcapUsd > 0 then result.pairMcapUsd
  else if result.pairMcapUsdInitial > 0 then result.pairMcapUsdInitial
  else 0

/-- `convertToTokenData` of `tokenUtils.ts`, restricted to the fields the
synchronization core consumes (identity, token address, chain, market cap,
total supply, paid flag); presentation-only fields are outside the core. -/
def convertToTokenData (result : ScannerResult) : TokenData :=
  { id := result.pairAddress
    pairAddress := result.pairAddress
    tokenAddress := result.token1Address
    chain := chainIdToName result.chainId
    totalSupply := result.token1TotalSupplyFormatted
    dexPaid := result.dexPaid }

/-! ## Snapshot selector (`useGetScannerInfiniteQuery.select` of api/hooks.ts)

`select` folds the fetched pages into the flat ordered view `allPages` and
the identity-indexed mapping `pairs`; object spread-merge of the per-page
map into the accumulator is `alSet` entry by entry. -/

/-- Fold one page's converted tokens into the identity index
(`prev[1] = { ...prev[1], ...convertedTokensMap }`). -/
def pairsIndexStep (m : List (String × TokenData)) (ts : List TokenData) :
    List (String × TokenData) :=
  ts.foldl (fun acc t => alSet acc t.pairAddress t) m

/-- The `select` reducer: flat view plus identity index. -/
def selectData (pages : List (List ScannerResult)) :
    List TokenData × List (String × TokenData) :=
  pages.foldl
    (fun prev page =>
      let convertedTokens := page.map convertToTokenData
      (prev.1 ++ convertedTokens, pairsIndexStep prev.2 convertedTokens))
    ([], [])

/-- One step of the `select` reducer (the body of the fold above). -/
def selStep (prev : List TokenData × List (String × TokenData))
    (page : List ScannerResult) :
    List TokenData × List (String × TokenData) :=
  (prev.1 ++ page.map convertToTokenData,
   pairsIndexStep prev.2 (page.map convertToTokenData))

/-! ## Update buffer and merge engine (`useTable` of src/unnamed/part_005)

The buffers are two maps keyed by row identity; `onTick` / `onStats`
overwrite the pending slot (`Map.set`); `processUpdates` snapshots and
clears both buffers and rewrites every cached page row by row. -/

/-- `swaps.filter(swap => !swap.isOutlier).pop()`. -/
def latestNonOutlierSwap (swaps : List WsTokenSwap) : Option WsTokenSwap :=
  (swaps.filter (fun sw => ! sw.isOutlier)).getLast?

/-- The buy/sell reducer of `processUpdates`: every swap of the batch is
classified by `tokenInAddress === token1Address` (outliers included). -/
def countBuysSells (swaps : List WsTokenSwap) (token1Address : String) : ℕ × ℕ :=
  swaps.foldl
    (fun prev sw =>
      if sw.tokenInAddress == token1Address then (prev.1 + 1, prev.2)
      else (prev.1, prev.2 + 1))
    (0, 0)

/-- The tick branch of `processUpdates` once a latest non-outlier swap `ls`
exists and the identity check passed. -/
def applyTick (t : TickEventPayload) (ls : WsTokenSwap) (item : ScannerResult) :
    ScannerResult :=
  let newPrice := ls.priceToken1Usd
  let newMarketCap := newPrice * item.token1TotalSupplyFormatted
  let newVolume := newPrice * ls.amountToken1 + item.volume
  let bs := countBuysSells t.swaps item.token1Address
  { item with
    price := newPrice
    currentMcap := newMarketCap
    volume := newVolume
    buys := some (item.buys.getD 0 + bs.1)
    sells := some (item.sells.getD 0 + bs.2) }

/-- The stats branch of `processUpdates`: whole-field overwrite from the
payload, except `contractVerified` which is copied from the existing row
(`item`), exactly as the source does. -/
def applyStats (u : PairStatsMsgData) (item d : ScannerResult) : ScannerResult :=
  { d with
    diff5M := u.pairStats.fiveMin.diff
    diff1H := u.pairStats.oneHour.diff
    diff6H := u.pairStats.sixHour.diff
    diff24H := u.pairStats.twentyFourHour.diff
    migrationProgress := u.migrationProgress
    isMintAuthDisabled := u.pair.mintAuthorityRenounced
    isFreezeAuthDisabled := u.pair.freezeAuthorityRenounced
    honeyPot := ! u.pair.token1IsHoneypot
    contractVerified := item.contractVerified
    dexPaid := u.pair.dexPaid
    discordLink := u.pair.linkDiscord
    telegramLink := u.pair.linkTelegram
    twitterLink := u.pair.linkTwitter
    webLink := u.pair.linkWebsite }

/-- Row mapper of `processUpdates`, phrased over the two pending-slot
lookups.  The source early-returns the untouched row when the buffered tick
batch has no non-outlier swap or its identity mismatches — in that case the
pending stats branch is never reached. -/
def processItemOpt (tickOpt : Option TickEventPayload)
    (statsOpt : Option PairStatsMsgData) (item : ScannerResult) : ScannerResult :=
  match tickOpt, statsOpt with
  | none, none => item
  | some t, _ =>
    match latestNonOutlierSwap t.swaps with
    | none => item
    | some ls =>
      if item.pairAddress ≠ t.pair.pair then item
      else
        let d := applyTick t ls item
        match statsOpt with
        | some u => applyStats u item d
        | none => d
  | none, some u => applyStats u item item

/-- Row mapper of `processUpdates` on the snapshotted buffers. -/
def processItem (ticks : List (String × TickEventPayload))
    (stats : List (String × PairStatsMsgData)) (item : ScannerResult) :
    ScannerResult :=
  processItemOpt (alGet ticks item.pairAddress) (alGet stats item.pairAddress) item

/-- The mutable state of the `useTable` merge engine: the cached pages and
the two pending-update buffers. -/
structure MergeState where
  pages : List (List ScannerResult)
  ticksStack : List (String × TickEventPayload)
  statsStack : List (String × PairStatsMsgData)
deriving DecidableEq

/-- The `onTick` handler: overwrite the pending tick slot for the pair. -/
def onTick (s : MergeState) (u : TickEventPayload) : MergeState :=
  { s with ticksStack := alSet s.ticksStack u.pair.pair u }

/-- The `onStats` handler: overwrite the pending stats slot for the pair. -/
def onStats (s : MergeState) (u : PairStatsMsgData) : MergeState :=
  { s with statsStack := alSet s.statsStack u.pair.pairAddress u }

/-- `processUpdates`: snapshot and clear both buffers, then rewrite every
cached page through the row mapper. -/
def processUpdates (s : MergeState) : MergeState :=
  { pages := s.pages.map (fun page => page.map (processItem s.ticksStack s.statsStack))
    ticksStack := []
    statsStack := [] }

/-- One buffered websocket event within a flush interval. -/
inductive WsEvent
  | tick (u : TickEventPayload)
  | stats (u : PairStatsMsgData)
deriving DecidableEq

/-- Route one event into the buffers. -/
def bufferEvent (s : MergeState) : WsEvent → MergeState
  | WsEvent.tick u => onTick s u
  | WsEvent.stats u => onStats s u

/-- Buffer a whole in-interval event sequence. -/
def bufferEvents (s : MergeState) (evs : List WsEvent) : MergeState :=
  evs.foldl bufferEvent s

/-- The chronologically last tick event of the sequence for identity `k`. -/
def lastTickFor (evs : List WsEvent) (k : String) : Option TickEventPayload :=
  evs.foldl
    (fun acc e =>
      match e with
      | WsEvent.tick u => if u.pair.pair == k then some u else acc
      | WsEvent.stats _ => acc)
    none

/-- The chronologically last stats event of the sequence for identity `k`. -/
def lastStatsFor (evs : List WsEvent) (k : String) : Option PairStatsMsgData :=
  evs.foldl
    (fun acc e =>
      match e with
      | WsEvent.tick _ => acc
      | WsEvent.stats u => if u.pair.pairAddress == k then some u else acc)
    none

/-- `chunkArray` of the `onScanner` handler: slice into pages of `n`. -/
def chunkArray {α : Type} (n : ℕ) : List α → List (List α)
  | [] => []
  | x :: xs =>
    if _h : n = 0 then []
    else (x :: xs).take n :: chunkArray n ((x :: xs).drop n)
termination_by l => l.length
decreasing_by
  simp only [List.length_drop, List.length_cons]
  omega

/-! ## Subscription registry and reconciliation

`useTable` (src/unnamed/part_005) keeps two registries, one per
subscription kind, keyed by pair address.  The registry primitives live in
the two-registry `useWebSocket` variant that the hook imports. -/

/-- The `{pair, token, chain}` body of a pair subscription message. -/
structure SubData where
  pair : String
  token : String
  chain : String
deriving DecidableEq

/-- Modelled from the spec: `subscribeToPair` of the two-registry
`useWebSocket` variant is not under `src/` (only its caller and its mock
are); per §4.2 it sends a subscribe message and records the subscription
if and only if no record for that (identity, kind) exists. -/
def subscribeToPair (reg : List (String × SubData)) (t : TokenData) :
    List (String × SubData) :=
  if alHas reg t.pairAddress then reg
  else reg ++ [(t.pairAddress, { pair := t.pairAddress, token := t.tokenAddress, chain := t.chain })]

/-- Modelled from the spec: `subscribeToPairStats` of the two-registry
`useWebSocket` variant, idempotent record keyed by pair address. -/
def subscribeToPairStats (reg : List (String × SubData)) (t : TokenData) :
    List (String × SubData) :=
  if alHas reg t.pairAddress then reg
  else reg ++ [(t.pairAddress, { pair := t.pairAddress, token := t.tokenAddress, chain := t.chain })]

/-- Modelled from the spec: `unsubscribeFromPair` of the two-registry
`useWebSocket` variant removes the record only if present (no-op
otherwise). -/
def unsubscribeFromPair (reg : List (String × SubData)) (pairAddress : String) :
    List (String × SubData) :=
  alDelete reg pairAddress

/-- Modelled from the spec: `unsubscribeFromPairStats`, idempotent removal. -/
def unsubscribeFromPairStats (reg : List (String × SubData)) (pairAddress : String) :
    List (String × SubData) :=
  alDelete reg pairAddress

/-- The `subscribe` callback of `useTable` (src/unnamed/part_005): sweep
every recorded identity absent from the identity index, then subscribe
every row of the flat view lacking a record — the reconcile operation. -/
def reconcile (ticksReg statsReg : List (String × SubData))
    (allPages : List TokenData) (pairsIdx : List (String × TokenData)) :
    List (String × SubData) × List (String × SubData) :=
  allPages.foldl
    (fun regs token =>
      ( if ¬ alHas regs.1 token.pairAddress then subscribeToPair regs.1 token else regs.1,
        if ¬ alHas regs.2 token.pairAddress then subscribeToPairStats regs.2 token else regs.2))
    ( ((alKeys ticksReg).filter (fun k => ¬ alHas pairsIdx k)).foldl
        unsubscribeFromPair ticksReg,
      ((alKeys statsReg).filter (fun k => ¬ alHas pairsIdx k)).foldl
        unsubscribeFromPairStats statsReg )

/-! ## Full table state and the scanner snapshot handler -/

/-- The state the `useTable` hook owns: cached pages, the two pending
buffers, and the two subscription registries. -/
structure TableState where
  pages : List (List ScannerResult)
  ticksStack : List (String × TickEventPayload)
  statsStack : List (String × PairStatsMsgData)
  ticksReg : List (String × SubData)
  statsReg : List (String × SubData)
deriving DecidableEq

/-- The `onScanner` handler of `useTable` (src/unnamed/part_005): replace
the cached pages with the fresh ranked list chunked into pages of 100 and
clear both pending buffers.  It touches nothing else — in particular the
subscription registries are left as they were. -/
def onScannerTable (st : TableState) (newPairs : List ScannerResult) : TableState :=
  { st with
    pages := chunkArray 100 newPairs
    ticksStack := []
    statsStack := [] }

/-! ## Streaming transport (`useWebSocket.ts`)

The reconnect machinery embedded as explicit state: socket handle,
connection flags, the two tracked timers (reconnect timeout, countdown
interval), the untracked settle-delay and backoff-retry callbacks, the
prefixed single-map subscription registry, and a log of sent frames. -/

/-- Scanner ranking/filter parameters (the fields relevant to message
identity). -/
structure ScannerParams where
  rankBy : String
  orderBy : String
deriving DecidableEq

/-- Outbound frames of the transport. -/
inductive OutMsg
  | scannerFilter (p : ScannerParams)
  | unsubScannerFilter (p : ScannerParams)
  | subscribePair (d : SubData)
  | unsubPair (d : SubData)
  | subscribePairStats (d : SubData)
  | unsubPairStats (d : SubData)
deriving DecidableEq

/-- Readiness of the underlying socket handle. -/
inductive SockReady
  | connecting
  | openR
  | closed
deriving DecidableEq

/-- The transport state of `useWebSocket.ts`. -/
structure WsState where
  socket : Option SockReady
  isConnected : Bool
  isConnecting : Bool
  reconnectTimeout : Bool
  countdownInterval : Bool
  reconnectCountdown : Option Int
  settlePending : Bool
  backoffPending : Bool
  subscriptions : List (String × SubData)
  lastScannerParams : Option ScannerParams
  sent : List OutMsg
  restoreCount : ℕ
  lastCloseCode : Option ℕ
deriving DecidableEq

/-- `clearReconnectTimers`: cancel the reconnect timeout and the countdown
interval, clear the countdown display, drop the connecting flag. -/
def clearReconnectTimers (s : WsState) : WsState :=
  { s with
    reconnectTimeout := false
    countdownInterval := false
    reconnectCountdown := none
    isConnecting := false }

/-- The synchronous body of `reconnect()`: clear any previous timers, then
arm the 3-second countdown interval and the reconnect timeout. -/
def reconnectStart (s : WsState) : WsState :=
  let s := clearReconnectTimers s
  { s with
    reconnectCountdown := some 3
    countdownInterval := true
    reconnectTimeout := true }

/-- The reconnect timeout firing: clear the countdown display, set the
connecting flag, close and replace the socket; on construction failure
drop the connecting flag and schedule the untracked 1-second backoff
retry. -/
def reconnectTimerFire (s : WsState) (constructionOk : Bool) : WsState :=
  let s := { s with
    reconnectTimeout := false
    reconnectCountdown := none
    isConnecting := true
    socket := none }
  if constructionOk then { s with socket := some SockReady.connecting }
  else { s with isConnecting := false, backoffPending := true }

/-- The untracked backoff-retry callback firing: it just calls
`reconnect()` again. -/
def backoffFire (s : WsState) : WsState :=
  reconnectStart { s with backoffPending := false }

/-- `sendMessage`: enqueue only while the socket is open, else drop. -/
def sendMessage (s : WsState) (m : OutMsg) : WsState :=
  if s.socket = some SockReady.openR then { s with sent := s.sent ++ [m] } else s

/-- `String.startsWith`, embedded on the character lists so that it
evaluates inside the kernel. -/
def strStartsWith (s p : String) : Bool :=
  p.data.isPrefixOf s.data

/-- The per-entry dispatch of `restoreSubscriptions`: keys are tested with
`startsWith('pair-')` first, so every entry (stats entries included, their
keys also start with `pair-`) is re-sent as `subscribe-pair`. -/
def restoreMsgFor (e : String × SubData) : Option OutMsg :=
  if strStartsWith e.1 "pair-" then some (OutMsg.subscribePair e.2)
  else if strStartsWith e.1 "pair-stats-" then some (OutMsg.subscribePairStats e.2)
  else none

/-- `restoreSubscriptions`: bail out unless the socket is open, re-send the
last scanner filter if any, then one subscribe frame per recorded
subscription. -/
def restoreSubscriptions (s : WsState) : WsState :=
  if s.socket ≠ some SockReady.openR then s
  else
    let s1 :=
      match s.lastScannerParams with
      | some p => sendMessage s (OutMsg.scannerFilter p)
      | none => s
    s.subscriptions.foldl
      (fun acc e =>
        match restoreMsgFor e with
        | some m => sendMessage acc m
        | none => acc)
      s1

/-- The settle-delay callback scheduled by `onopen`: invoke
`restoreSubscriptions` (counted) and then the owner's `onReconnected`
hook. -/
def settleFire (s : WsState) : WsState :=
  { restoreSubscriptions { s with settlePending := false } with
    restoreCount := (restoreSubscriptions { s with settlePending := false }).restoreCount + 1 }

/-- The `onopen` handler: mark connected, clear the reconnect timers and
schedule the settle-delay callback. -/
def handleOpen (s : WsState) : WsState :=
  let s := { s with isConnected := true, socket := some SockReady.openR }
  let s := clearReconnectTimers s
  { s with settlePending := true }

/-- The `onclose` handler: mark disconnected and, for any close code other
than the clean-close code 1000, start reconnection. -/
def handleClose (s : WsState) (code : ℕ) : WsState :=
  let s := { s with isConnected := false, socket := some SockReady.closed, lastCloseCode := some code }
  if code ≠ 1000 then reconnectStart s else s

/-- `disconnect`: clear the tracked reconnect timers and close the socket
with the clean-close code 1000.  The untracked settle and backoff
callbacks have no handle and are not cancelled. -/
def disconnect (s : WsState) : WsState :=
  let s := clearReconnectTimers s
  match s.socket with
  | some _ => { s with socket := none, isConnected := false, lastCloseCode := some 1000 }
  | none => { s with isConnected := false }

/-! ## Derived operations and specification-side comparison definitions -/

/-- Buffer an event sequence and then run one flush. -/
def flushOf (s0 : MergeState) (evs : List WsEvent) : MergeState :=
  processUpdates (bufferEvents s0 evs)

/-- Specification-side definition (the spec's words, for the batching
claim): apply, per row, only the chronologically last tick event and the
chronologically last stats event of the interval directly. -/
def specDirectApply (s0 : MergeState) (evs : List WsEvent) : List (List ScannerResult) :=
  s0.pages.map (fun page =>
    page.map (fun item =>
      processItemOpt (lastTickFor evs item.pairAddress) (lastStatsFor evs item.pairAddress) item))

/-- The merge-engine view of a table state. -/
def mergeStateOf (st : TableState) : MergeState :=
  { pages := st.pages, ticksStack := st.ticksStack, statsStack := st.statsStack }

/-! ## Concrete sample inputs for witnesses and counterexamples -/

/-- A cached row: identity `0xabc`, own token `0xtoken1`, total supply
1000000, price 0.001, volume 100, buys 100, sells 50, unverified
contract. -/
def sampleItem : ScannerResult :=
  { pairAddress := "0xabc"
    token1Address := "0xtoken1"
    token1TotalSupplyFormatted := 1000000
    price := 1/1000
    volume := 100
    currentMcap := 1000
    initialMcap := 0
    pairMcapUsd := 0
    pairMcapUsdInitial := 0
    buys := some 100
    sells := some 50
    diff5M := 0
    diff1H := 0
    diff6H := 0
    diff24H := 0
    migrationProgress := 0
    isMintAuthDisabled := false
    isFreezeAuthDisabled := false
    honeyPot := false
    contractVerified := false
    dexPaid := false
    discordLink := none
    telegramLink := none
    twitterLink := none
    webLink := none
    chainId := 1 }

/-- A non-outlier buy of amount 10 at price 0.002. -/
def swapBuyTen : WsTokenSwap :=
  { priceToken1Usd := 2/1000, amountToken1 := 10, tokenInAddress := "0xtoken1", isOutlier := false }

/-- A non-outlier buy of amount 20 at price 0.002. -/
def swapBuyTwenty : WsTokenSwap :=
  { priceToken1Usd := 2/1000, amountToken1 := 20, tokenInAddress := "0xtoken1", isOutlier := false }

/-- An outlier-flagged buy. -/
def swapOutlierBuy : WsTokenSwap :=
  { priceToken1Usd := 3, amountToken1 := 5, tokenInAddress := "0xtoken1", isOutlier := true }

/-- The `pair` header of tick messages for `0xabc`. -/
def tickPairAbc : TickPair :=
  { pair := "0xabc", token := "0xtoken1", chain := "ETH" }

/-- The end-to-end example batch: one non-outlier buy of amount 10 at
price 0.002. -/
def tickSingle : TickEventPayload :=
  { pair := tickPairAbc, swaps := [swapBuyTen] }

/-- A batch of two non-outlier buys (amounts 10 and 20). -/
def tickDouble : TickEventPayload :=
  { pair := tickPairAbc, swaps := [swapBuyTen, swapBuyTwenty] }

/-- A batch with one non-outlier buy and one outlier-flagged buy. -/
def tickWithOutlier : TickEventPayload :=
  { pair := tickPairAbc, swaps := [swapBuyTen, swapOutlierBuy] }

/-- A batch whose every swap is outlier-flagged. -/
def tickAllOutliers : TickEventPayload :=
  { pair := tickPairAbc, swaps := [swapOutlierBuy] }

/-- A stats payload for `0xabc` whose upstream says the contract is
verified and the token is not a honeypot. -/
def statsVerified : PairStatsMsgData :=
  { pair :=
      { pairAddress := "0xabc"
        mintAuthorityRenounced := true
        freezeAuthorityRenounced := true
        token1IsHoneypot := false
        isVerified := true
        dexPaid := true
        linkDiscord := some "https://discord.gg/x"
        linkTelegram := none
        linkTwitter := some "https://x.com/x"
        linkWebsite := none }
    pairStats :=
      { fiveMin := { diff := 1 }
        oneHour := { diff := 2 }
        sixHour := { diff := 3 }
        twentyFourHour := { diff := 4 } }
    migrationProgress := 50 }

/-- A recorded subscription for a pair that no longer exists. -/
def staleSub : SubData :=
  { pair := "0xdead", token := "0xdeadtok", chain := "ETH" }

/-- A recorded subscription for `0xabc`. -/
def subAbc : SubData :=
  { pair := "0xabc", token := "0xtoken1", chain := "ETH" }

/-- A table state holding one cached row, one pending tick, and a stale
tick-registry record for `0xdead`. -/
def sampleTableState : TableState :=
  { pages := [[sampleItem]]
    ticksStack := [("0xabc", tickSingle)]
    statsStack := []
    ticksReg := [("0xdead", staleSub)]
    statsReg := [] }

/-- Scanner parameters: rank by volume, descending. -/
def sampleParams : ScannerParams :=
  { rankBy := "volume", orderBy := "desc" }

/-- A healthy open transport with one pair and one pair-stats
subscription recorded and a last-known scanner filter. -/
def sampleWsState : WsState :=
  { socket := some SockReady.openR
    isConnected := true
    isConnecting := false
    reconnectTimeout := false
    countdownInterval := false
    reconnectCountdown := none
    settlePending := false
    backoffPending := false
    subscriptions := [("pair-0xabc", subAbc), ("pair-stats-0xabc", subAbc)]
    lastScannerParams := some sampleParams
    sent := []
    restoreCount := 0
    lastCloseCode := none }

/-- The transport right after socket construction threw during a reconnect
attempt: no socket, and the untracked 1-second backoff retry pending. -/
def wsAfterFailedConstruction : WsState :=
  { sampleWsState with
    socket := none
    isConnected := false
    backoffPending := true }

/-- A merge state with one cached row and empty buffers. -/
def sampleMergeState : MergeState :=
  { pages := [[sampleItem]], ticksStack := [], statsStack := [] }

/-- A merge state whose pending tick for `0xabc` is all-outlier while a
stats update for the same row is pending too. -/
def shadowedStatsMergeState : MergeState :=
  { pages := [[sampleItem]]
    ticksStack := [("0xabc", tickAllOutliers)]
    statsStack := [("0xabc", statsVerified)] }

/-! # Theorems -/


/-! ## Association-list toolkit -/

theorem alGet_cons {α : Type} (p : String × α) (l : List (String × α)) (k : String) :
    alGet (p :: l) k = if p.1 = k then some p.2 else alGet l k := by
  by_cases h : p.1 = k <;> simp [alGet, List.find?_cons, h]

theorem alHas_cons {α : Type} (p : String × α) (l : List (String × α)) (k : String) :
    alHas (p :: l) k = if p.1 = k then true else alHas l k := by
  by_cases h : p.1 = k <;> simp [alHas, List.find?_cons, h]

theorem alHas_eq_isSome_alGet {α : Type} (l : List (String × α)) (k : String) :
    alHas l k = (alGet l k).isSome := by
  simp [alGet, alHas]

theorem alSet_eq {α : Type} (l : List (String × α)) (kk : String) (v : α) :
    alSet l kk v =
      if alHas l kk then l.map (fun q => if q.1 = kk then (kk, v) else q)
      else l ++ [(kk, v)] := by
  have hfun : (fun q : String × α => if q.1 == kk then (kk, v) else q)
      = (fun q : String × α => if q.1 = kk then (kk, v) else q) := by
    funext q
    by_cases hq : q.1 = kk <;> simp [hq]
  rw [alSet, hfun]

theorem alGet_overwriteMap_self {α : Type} (l : List (String × α)) (kk : String) (v : α)
    (h : alHas l kk = true) :
    alGet (l.map (fun q => if q.1 = kk then (kk, v) else q)) kk = some v := by
  induction l with
  | nil => simp [alHas] at h
  | cons q l ih =>
    by_cases hq : q.1 = kk
    · simp [alGet_cons, hq]
    · rw [alHas_cons, if_neg hq] at h
      simp only [List.map_cons, if_neg hq]
      rw [alGet_cons, if_neg hq]
      exact ih h

theorem alGet_overwriteMap_ne {α : Type} (l : List (String × α)) (kk k : String) (v : α)
    (h : kk ≠ k) :
    alGet (l.map (fun q => if q.1 = kk then (kk, v) else q)) k = alGet l k := by
  induction l with
  | nil => simp
  | cons q l ih =>
    by_cases hq : q.1 = kk
    · simp only [List.map_cons, if_pos hq]
      rw [alGet_cons, alGet_cons, ih]
      simp [hq, h]
    · simp only [List.map_cons, if_neg hq]
      rw [alGet_cons, alGet_cons, ih]

theorem alGet_append_single_self {α : Type} (l : List (String × α)) (kk : String) (v : α)
    (h : alHas l kk = false) :
    alGet (l ++ [(kk, v)]) kk = some v := by
  induction l with
  | nil => simp [alGet_cons]
  | cons q l ih =>
    rw [alHas_cons] at h
    by_cases hq : q.1 = kk
    · simp [hq] at h
    · rw [if_neg hq] at h
      rw [List.cons_append, alGet_cons, if_neg hq]
      exact ih h

theorem alGet_append_single_ne {α : Type} (l : List (String × α)) (kk k : String) (v : α)
    (h : kk ≠ k) :
    alGet (l ++ [(kk, v)]) k = alGet l k := by
  induction l with
  | nil => simp [alGet_cons, alGet, h]
  | cons q l ih =>
    rw [List.cons_append, alGet_cons, alGet_cons, ih]

theorem alGet_alSet {α : Type} (l : List (String × α)) (kk k : String) (v : α) :
    alGet (alSet l kk v) k = if kk = k then some v else alGet l k := by
  rw [alSet_eq]
  by_cases hk : kk = k
  · subst hk
    cases h : alHas l kk with
    | true => simp [h, alGet_overwriteMap_self l kk v h]
    | false => simp [h, alGet_append_single_self l kk v h]
  · cases h : alHas l kk with
    | true => simp [h, hk, alGet_overwriteMap_ne l kk k v hk]
    | false => simp [h, hk, alGet_append_single_ne l kk k v hk]

theorem mem_alKeys_iff_alHas {α : Type} (l : List (String × α)) (k : String) :
    k ∈ alKeys l ↔ alHas l k = true := by
  induction l with
  | nil => simp [alKeys, alHas]
  | cons q l ih =>
    rw [alHas_cons]
    have e : alKeys (q :: l) = q.1 :: alKeys l := rfl
    rw [e, List.mem_cons]
    by_cases hq : q.1 = k
    · simp [hq]
    · have hq2 : ¬ k = q.1 := fun hh => hq hh.symm
      simp [hq, hq2, ih]

theorem alKeys_overwriteMap {α : Type} (l : List (String × α)) (kk : String) (v : α) :
    alKeys (l.map (fun q => if q.1 = kk then (kk, v) else q)) = alKeys l := by
  simp only [alKeys, List.map_map]
  apply List.map_congr_left
  intro q _
  by_cases hq : q.1 = kk <;> simp [hq, Function.comp]

theorem alKeys_alSet_has {α : Type} (l : List (String × α)) (kk : String) (v : α)
    (h : alHas l kk = true) :
    alKeys (alSet l kk v) = alKeys l := by
  rw [alSet_eq]
  simp [h, alKeys_overwriteMap]

theorem alKeys_alSet_not_has {α : Type} (l : List (String × α)) (kk : String) (v : α)
    (h : alHas l kk = false) :
    alKeys (alSet l kk v) = alKeys l ++ [kk] := by
  rw [alSet_eq]
  simp [h, alKeys]

theorem mem_alKeys_alSet {α : Type} (l : List (String × α)) (kk k : String) (v : α) :
    k ∈ alKeys (alSet l kk v) ↔ k = kk ∨ k ∈ alKeys l := by
  cases h : alHas l kk with
  | true =>
    rw [alKeys_alSet_has l kk v h]
    constructor
    · exact Or.inr
    · rintro (rfl | hm)
      · exact (mem_alKeys_iff_alHas l k).mpr h
      · exact hm
  | false =>
    rw [alKeys_alSet_not_has l kk v h, List.mem_append, List.mem_singleton]
    tauto

theorem nodup_alKeys_alSet {α : Type} (l : List (String × α)) (kk : String) (v : α)
    (h : (alKeys l).Nodup) :
    (alKeys (alSet l kk v)).Nodup := by
  cases hh : alHas l kk with
  | true => rw [alKeys_alSet_has l kk v hh]; exact h
  | false =>
    rw [alKeys_alSet_not_has l kk v hh, List.nodup_append]
    refine ⟨h, List.nodup_singleton kk, ?_⟩
    intro a ha hb
    rw [List.mem_singleton] at hb
    subst hb
    rw [mem_alKeys_iff_alHas, hh] at ha
    exact Bool.false_ne_true ha

theorem alKeys_alDelete {α : Type} (l : List (String × α)) (k : String) :
    alKeys (alDelete l k) = (alKeys l).filter (fun x => ! (x == k)) := by
  simp only [alKeys, alDelete, List.filter_map]
  rfl

theorem mem_alKeys_alDelete {α : Type} (l : List (String × α)) (k x : String) :
    x ∈ alKeys (alDelete l k) ↔ x ∈ alKeys l ∧ ¬ x = k := by
  rw [alKeys_alDelete, List.mem_filter]
  simp

theorem nodup_alKeys_alDelete {α : Type} (l : List (String × α)) (k : String)
    (h : (alKeys l).Nodup) :
    (alKeys (alDelete l k)).Nodup := by
  rw [alKeys_alDelete]
  exact h.filter _

/-! ## Buffering lemmas: last-write-wins coalescing -/

theorem bufferEvent_pages (s : MergeState) (e : WsEvent) :
    (bufferEvent s e).pages = s.pages := by
  cases e <;> rfl

theorem bufferEvents_pages (s : MergeState) (evs : List WsEvent) :
    (bufferEvents s evs).pages = s.pages := by
  induction evs generalizing s with
  | nil => rfl
  | cons e evs ih =>
    have h1 : bufferEvents s (e :: evs) = bufferEvents (bufferEvent s e) evs := rfl
    rw [h1, ih, bufferEvent_pages]

theorem ticks_foldl_gen (evs : List WsEvent) (s : MergeState) (k : String) :
    alGet (bufferEvents s evs).ticksStack k
      = evs.foldl
          (fun acc e =>
            match e with
            | WsEvent.tick u => if u.pair.pair == k then some u else acc
            | WsEvent.stats _ => acc)
          (alGet s.ticksStack k) := by
  induction evs generalizing s with
  | nil => rfl
  | cons e evs ih =>
    have h1 : bufferEvents s (e :: evs) = bufferEvents (bufferEvent s e) evs := rfl
    rw [h1, List.foldl_cons, ih]
    congr 1
    cases e with
    | tick u =>
      show alGet (alSet s.ticksStack u.pair.pair u) k
          = if u.pair.pair == k then some u else alGet s.ticksStack k
      rw [alGet_alSet]
      by_cases h : u.pair.pair = k <;> simp [h]
    | stats u => rfl

theorem stats_foldl_gen (evs : List WsEvent) (s : MergeState) (k : String) :
    alGet (bufferEvents s evs).statsStack k
      = evs.foldl
          (fun acc e =>
            match e with
            | WsEvent.tick _ => acc
            | WsEvent.stats u => if u.pair.pairAddress == k then some u else acc)
          (alGet s.statsStack k) := by
  induction evs generalizing s with
  | nil => rfl
  | cons e evs ih =>
    have h1 : bufferEvents s (e :: evs) = bufferEvents (bufferEvent s e) evs := rfl
    rw [h1, List.foldl_cons, ih]
    congr 1
    cases e with
    | tick u => rfl
    | stats u =>
      show alGet (alSet s.statsStack u.pair.pairAddress u) k
          = if u.pair.pairAddress == k then some u else alGet s.statsStack k
      rw [alGet_alSet]
      by_cases h : u.pair.pairAddress = k <;> simp [h]

theorem alGet_ticks_bufferEvents (evs : List WsEvent) (k : String) (s : MergeState)
    (h : s.ticksStack = []) :
    alGet (bufferEvents s evs).ticksStack k = lastTickFor evs k := by
  rw [ticks_foldl_gen, h]
  rfl

theorem alGet_stats_bufferEvents (evs : List WsEvent) (k : String) (s : MergeState)
    (h : s.statsStack = []) :
    alGet (bufferEvents s evs).statsStack k = lastStatsFor evs k := by
  rw [stats_foldl_gen, h]
  rfl

/-- C2: for every event sequence buffered within one flush interval
(starting from empty buffers), the batched flush equals applying, per row,
only the chronologically last tick event and the chronologically last stats
event of the interval directly, and the flush leaves both buffers empty. -/
theorem batched_flush_eq_direct (evs : List WsEvent) (s0 : MergeState)
    (h1 : s0.ticksStack = []) (h2 : s0.statsStack = []) :
    flushOf s0 evs
      = { pages := specDirectApply s0 evs, ticksStack := [], statsStack := [] } := by
  have hpages :
      (bufferEvents s0 evs).pages.map
          (fun page =>
            page.map
              (processItem (bufferEvents s0 evs).ticksStack (bufferEvents s0 evs).statsStack))
        = specDirectApply s0 evs := by
    unfold specDirectApply
    rw [bufferEvents_pages]
    apply List.map_congr_left
    intro page _
    apply List.map_congr_left
    intro item _
    unfold processItem
    rw [alGet_ticks_bufferEvents evs item.pairAddress s0 h1,
      alGet_stats_bufferEvents evs item.pairAddress s0 h2]
  unfold flushOf processUpdates
  rw [hpages]

/-- C2 witness: the batching equivalence applied to a concrete interval of
two ticks and one stats event for the sample row. -/
theorem batched_flush_eq_direct_witness :
    sampleMergeState.ticksStack = []
    ∧ flushOf sampleMergeState
        [WsEvent.tick tickDouble, WsEvent.tick tickSingle, WsEvent.stats statsVerified]
      = { pages :=
            specDirectApply sampleMergeState
              [WsEvent.tick tickDouble, WsEvent.tick tickSingle, WsEvent.stats statsVerified]
          ticksStack := []
          statsStack := [] } :=
  ⟨rfl,
    batched_flush_eq_direct
      [WsEvent.tick tickDouble, WsEvent.tick tickSingle, WsEvent.stats statsVerified]
      sampleMergeState rfl rfl⟩

/-! ## Tick recomputation (merge engine row mapper) -/

/-- C1 (amended): when a buffered tick batch for a row has a latest
non-outlier swap, the merge sets the price to that swap's execution price,
the market cap to that price times the row's total-supply constant, and
the volume to the old volume plus that price times the latest swap's own
amount (not the batch-summed amount). -/
theorem tick_merge_price_mcap_volume (ticks : List (String × TickEventPayload))
    (stats : List (String × PairStatsMsgData)) (item : ScannerResult)
    (t : TickEventPayload) (ls : WsTokenSwap)
    (ht : alGet ticks item.pairAddress = some t)
    (hls : latestNonOutlierSwap t.swaps = some ls)
    (hkey : t.pair.pair = item.pairAddress) :
    (processItem ticks stats item).price = ls.priceToken1Usd
    ∧ (processItem ticks stats item).currentMcap
        = ls.priceToken1Usd * item.token1TotalSupplyFormatted
    ∧ (processItem ticks stats item).volume
        = ls.priceToken1Usd * ls.amountToken1 + item.volume := by
  cases hso : alGet stats item.pairAddress with
  | none => simp [processItem, ht, hso, processItemOpt, hls, hkey, applyTick]
  | some u => simp [processItem, ht, hso, processItemOpt, hls, hkey, applyTick, applyStats]

/-- C1 witness: the end-to-end example — one non-outlier trade of amount
10 at price 0.002 against the sample row. -/
theorem tick_merge_price_mcap_volume_witness :
    alGet [("0xabc", tickSingle)] sampleItem.pairAddress = some tickSingle
    ∧ latestNonOutlierSwap tickSingle.swaps = some swapBuyTen
    ∧ ((processItem [("0xabc", tickSingle)] [] sampleItem).price = swapBuyTen.priceToken1Usd
      ∧ (processItem [("0xabc", tickSingle)] [] sampleItem).currentMcap
          = swapBuyTen.priceToken1Usd * sampleItem.token1TotalSupplyFormatted
      ∧ (processItem [("0xabc", tickSingle)] [] sampleItem).volume
          = swapBuyTen.priceToken1Usd * swapBuyTen.amountToken1 + sampleItem.volume) :=
  ⟨rfl, rfl,
    tick_merge_price_mcap_volume [("0xabc", tickSingle)] [] sampleItem tickSingle swapBuyTen
      rfl rfl rfl⟩

/-- C1 counterexample: on a batch of two non-outlier swaps (amounts 10 and
20 at price 0.002) the code adds price times 20 (the latest swap only),
not price times the batch sum 30 the claim states. -/
theorem tick_merge_volume_not_batch_sum :
    ¬ ((processItem [("0xabc", tickDouble)] [] sampleItem).volume
        = sampleItem.volume + (2/1000) * (10 + 20)) := by
  have hv : (processItem [("0xabc", tickDouble)] [] sampleItem).volume
      = (2/1000) * 20 + 100 := by
    simp [processItem, processItemOpt, alGet, List.find?, tickDouble, tickPairAbc,
      sampleItem, swapBuyTen, swapBuyTwenty, latestNonOutlierSwap, applyTick]
  rw [hv]
  have hs : sampleItem.volume = 100 := rfl
  rw [hs]
  norm_num

/-- C4 helper: the buy/sell reducer counts, over the whole batch, the swaps
whose input token is the row's own token and the remainder. -/
theorem countBuysSells_eq_countP (swaps : List WsTokenSwap) (addr : String) :
    countBuysSells swaps addr
      = (swaps.countP (fun sw => sw.tokenInAddress == addr),
         swaps.countP (fun sw => ! (sw.tokenInAddress == addr))) := by
  suffices h : ∀ (a b : ℕ),
      swaps.foldl
        (fun prev sw =>
          if sw.tokenInAddress == addr then (prev.1 + 1, prev.2)
          else (prev.1, prev.2 + 1))
        (a, b)
      = (a + swaps.countP (fun sw => sw.tokenInAddress == addr),
         b + swaps.countP (fun sw => ! (sw.tokenInAddress == addr))) by
    simpa [countBuysSells] using h 0 0
  intro a b
  induction swaps generalizing a b with
  | nil => simp
  | cons sw swaps ih =>
    cases h : (sw.tokenInAddress == addr) with
    | true =>
      rw [List.foldl_cons]
      simp only [h, if_true]
      rw [ih]
      simp [List.countP_cons, h]
      omega
    | false =>
      rw [List.foldl_cons]
      simp only [h, Bool.false_eq_true, if_false]
      rw [ih]
      simp [List.countP_cons, h]
      omega

/-- C4 (amended): when the batch has a latest non-outlier swap, the buy and
sell counters add the classification counts of every swap of the batch —
outlier-flagged swaps included — to the running totals. -/
theorem tick_merge_buys_sells (ticks : List (String × TickEventPayload))
    (stats : List (String × PairStatsMsgData)) (item : ScannerResult)
    (t : TickEventPayload) (ls : WsTokenSwap)
    (ht : alGet ticks item.pairAddress = some t)
    (hls : latestNonOutlierSwap t.swaps = some ls)
    (hkey : t.pair.pair = item.pairAddress) :
    (processItem ticks stats item).buys
      = some (item.buys.getD 0
          + t.swaps.countP (fun sw => sw.tokenInAddress == item.token1Address))
    ∧ (processItem ticks stats item).sells
      = some (item.sells.getD 0
          + t.swaps.countP (fun sw => ! (sw.tokenInAddress == item.token1Address))) := by
  cases hso : alGet stats item.pairAddress with
  | none =>
    simp [processItem, ht, hso, processItemOpt, hls, hkey, applyTick,
      countBuysSells_eq_countP]
  | some u =>
    simp [processItem, ht, hso, processItemOpt, hls, hkey, applyTick, applyStats,
      countBuysSells_eq_countP]

/-- C4 witness: a batch with one non-outlier buy and one outlier buy adds
2 to the buy counter (both classified) against the sample row. -/
theorem tick_merge_buys_sells_witness :
    alGet [("0xabc", tickWithOutlier)] sampleItem.pairAddress = some tickWithOutlier
    ∧ latestNonOutlierSwap tickWithOutlier.swaps = some swapBuyTen
    ∧ ((processItem [("0xabc", tickWithOutlier)] [] sampleItem).buys
        = some (sampleItem.buys.getD 0
            + tickWithOutlier.swaps.countP
                (fun sw => sw.tokenInAddress == sampleItem.token1Address))
      ∧ (processItem [("0xabc", tickWithOutlier)] [] sampleItem).sells
        = some (sampleItem.sells.getD 0
            + tickWithOutlier.swaps.countP
                (fun sw => ! (sw.tokenInAddress == sampleItem.token1Address)))) :=
  ⟨rfl, rfl,
    tick_merge_buys_sells [("0xabc", tickWithOutlier)] [] sampleItem tickWithOutlier
      swapBuyTen rfl rfl rfl⟩

/-- C4 counterexample: with prior buys 100 and a batch of one non-outlier
buy plus one outlier-flagged buy, the claim predicts buys 101 (outliers
contribute to neither counter) but the code yields buys 102. -/
theorem tick_merge_counts_outlier_trades :
    ¬ ((processItem [("0xabc", tickWithOutlier)] [] sampleItem).buys = some (100 + 1)) := by
  decide

/-! ## Stats recomputation (merge engine row mapper) -/

/-- C5 (amended): a buffered stats event overwrites migration progress, the
mint/freeze audit flags, the honeypot flag with inverted polarity, the four
social links, and the paid flag from the payload, but `contractVerified`
is preserved from the existing row, not overwritten. -/
theorem stats_merge_fields (ticks : List (String × TickEventPayload))
    (stats : List (String × PairStatsMsgData)) (item : ScannerResult)
    (u : PairStatsMsgData)
    (hts : alGet ticks item.pairAddress = none)
    (hst : alGet stats item.pairAddress = some u) :
    (processItem ticks stats item).migrationProgress = u.migrationProgress
    ∧ (processItem ticks stats item).isMintAuthDisabled = u.pair.mintAuthorityRenounced
    ∧ (processItem ticks stats item).isFreezeAuthDisabled = u.pair.freezeAuthorityRenounced
    ∧ (processItem ticks stats item).honeyPot = ! u.pair.token1IsHoneypot
    ∧ (processItem ticks stats item).contractVerified = item.contractVerified
    ∧ (processItem ticks stats item).dexPaid = u.pair.dexPaid
    ∧ (processItem ticks stats item).discordLink = u.pair.linkDiscord
    ∧ (processItem ticks stats item).telegramLink = u.pair.linkTelegram
    ∧ (processItem ticks stats item).twitterLink = u.pair.linkTwitter
    ∧ (processItem ticks stats item).webLink = u.pair.linkWebsite := by
  simp [processItem, hts, hst, processItemOpt, applyStats]

/-- C5 witness: the verified-and-not-honeypot stats payload applied to the
sample row. -/
theorem stats_merge_fields_witness :
    alGet ([] : List (String × TickEventPayload)) sampleItem.pairAddress = none
    ∧ ((processItem [] [("0xabc", statsVerified)] sampleItem).migrationProgress
          = statsVerified.migrationProgress
      ∧ (processItem [] [("0xabc", statsVerified)] sampleItem).isMintAuthDisabled
          = statsVerified.pair.mintAuthorityRenounced
      ∧ (processItem [] [("0xabc", statsVerified)] sampleItem).isFreezeAuthDisabled
          = statsVerified.pair.freezeAuthorityRenounced
      ∧ (processItem [] [("0xabc", statsVerified)] sampleItem).honeyPot
          = ! statsVerified.pair.token1IsHoneypot
      ∧ (processItem [] [("0xabc", statsVerified)] sampleItem).contractVerified
          = sampleItem.contractVerified
      ∧ (processItem [] [("0xabc", statsVerified)] sampleItem).dexPaid
          = statsVerified.pair.dexPaid
      ∧ (processItem [] [("0xabc", statsVerified)] sampleItem).discordLink
          = statsVerified.pair.linkDiscord
      ∧ (processItem [] [("0xabc", statsVerified)] sampleItem).telegramLink
          = statsVerified.pair.linkTelegram
      ∧ (processItem [] [("0xabc", statsVerified)] sampleItem).twitterLink
          = statsVerified.pair.linkTwitter
      ∧ (processItem [] [("0xabc", statsVerified)] sampleItem).webLink
          = statsVerified.pair.linkWebsite) :=
  ⟨rfl,
    stats_merge_fields [] [("0xabc", statsVerified)] sampleItem statsVerified rfl rfl⟩

/-- C5 counterexample: the upstream payload says the contract is verified,
the cached row says it is not; after the merge the row still says it is
not — the verified-contract field is not whole-field-replaced from the
payload. -/
theorem stats_merge_preserves_contract_verified :
    ¬ ((processItem [] [("0xabc", statsVerified)] sampleItem).contractVerified
        = statsVerified.pair.isVerified) := by
  decide

/-! ## Frame effect of an all-outlier tick on a pending stats update -/

/-- C10: when the buffered tick batch for a row has no non-outlier swap and
a stats update for the same row is buffered, the row mapper early-returns
the row unchanged (the stats branch is never reached) and the flush leaves
both buffers empty, so the pending stats update is discarded. -/
theorem allOutlier_tick_shadows_stats (s : MergeState) (item : ScannerResult)
    (t : TickEventPayload) (u : PairStatsMsgData)
    (ht : alGet s.ticksStack item.pairAddress = some t)
    (hno : latestNonOutlierSwap t.swaps = none)
    (hst : alGet s.statsStack item.pairAddress = some u) :
    processItem s.ticksStack s.statsStack item = item
    ∧ (processUpdates s).ticksStack = []
    ∧ (processUpdates s).statsStack = [] := by
  refine ⟨?_, rfl, rfl⟩
  simp [processItem, ht, hst, processItemOpt, hno]

/-- C10 witness: the all-outlier tick plus pending stats for the sample
row. -/
theorem allOutlier_tick_shadows_stats_witness :
    alGet shadowedStatsMergeState.ticksStack sampleItem.pairAddress = some tickAllOutliers
    ∧ latestNonOutlierSwap tickAllOutliers.swaps = none
    ∧ (processItem shadowedStatsMergeState.ticksStack shadowedStatsMergeState.statsStack
          sampleItem
        = sampleItem
      ∧ (processUpdates shadowedStatsMergeState).ticksStack = []
      ∧ (processUpdates shadowedStatsMergeState).statsStack = []) :=
  ⟨rfl, rfl,
    allOutlier_tick_shadows_stats shadowedStatsMergeState sampleItem tickAllOutliers
      statsVerified rfl rfl rfl⟩

/-! ## Snapshot selector lemmas (flat view and identity index) -/

theorem selectData_eq_foldl_selStep (pages : List (List ScannerResult)) :
    selectData pages = pages.foldl selStep ([], []) := rfl

theorem foldl_selStep_fst (pages : List (List ScannerResult)) :
    ∀ prev, (pages.foldl selStep prev).1
      = prev.1 ++ (pages.map (fun page => page.map convertToTokenData)).flatten := by
  induction pages with
  | nil => simp
  | cons page pages ih =>
    intro prev
    rw [List.foldl_cons, ih]
    simp [selStep]

theorem mem_alKeys_pairsIndexStep (ts : List TokenData) :
    ∀ m k, k ∈ alKeys (pairsIndexStep m ts)
      ↔ k ∈ alKeys m ∨ k ∈ ts.map (fun t => t.pairAddress) := by
  induction ts with
  | nil => simp [pairsIndexStep]
  | cons t ts ih =>
    intro m k
    have h1 : pairsIndexStep m (t :: ts) = pairsIndexStep (alSet m t.pairAddress t) ts := rfl
    rw [h1, ih, mem_alKeys_alSet]
    simp only [List.map_cons, List.mem_cons]
    tauto

theorem mem_alSet_entries {α : Type} (l : List (String × α)) (kk : String) (v : α)
    (e : String × α) (he : e ∈ alSet l kk v) : e ∈ l ∨ e = (kk, v) := by
  rw [alSet_eq] at he
  cases h : alHas l kk with
  | true =>
    rw [h, if_pos rfl] at he
    rcases List.mem_map.mp he with ⟨q, hq, rfl⟩
    by_cases hqk : q.1 = kk
    · right
      simp [hqk]
    · left
      simpa [hqk] using hq
  | false =>
    rw [h] at he
    simp only [Bool.false_eq_true, if_false] at he
    rcases List.mem_append.mp he with h2 | h2
    · exact Or.inl h2
    · exact Or.inr (List.mem_singleton.mp h2)

theorem entries_pairsIndexStep (ts : List TokenData) :
    ∀ m e, e ∈ pairsIndexStep m ts
      → e ∈ m ∨ (e.2 ∈ ts ∧ e.1 = e.2.pairAddress) := by
  induction ts with
  | nil => intro m e he; exact Or.inl he
  | cons t ts ih =>
    intro m e he
    have h1 : pairsIndexStep m (t :: ts) = pairsIndexStep (alSet m t.pairAddress t) ts := rfl
    rw [h1] at he
    rcases ih (alSet m t.pairAddress t) e he with h | h
    · rcases mem_alSet_entries m t.pairAddress t e h with h2 | h2
      · exact Or.inl h2
      · subst h2
        exact Or.inr ⟨List.mem_cons_self t ts, rfl⟩
    · exact Or.inr ⟨List.mem_cons_of_mem t h.1, h.2⟩

theorem foldl_selStep_invariant (pages : List (List ScannerResult)) :
    ∀ prev : List TokenData × List (String × TokenData),
      ((∀ k, k ∈ alKeys prev.2 ↔ k ∈ prev.1.map (fun t => t.pairAddress))
        ∧ (∀ e ∈ prev.2, e.2 ∈ prev.1 ∧ e.1 = e.2.pairAddress))
      → ((∀ k, k ∈ alKeys (pages.foldl selStep prev).2
            ↔ k ∈ (pages.foldl selStep prev).1.map (fun t => t.pairAddress))
        ∧ (∀ e ∈ (pages.foldl selStep prev).2,
            e.2 ∈ (pages.foldl selStep prev).1 ∧ e.1 = e.2.pairAddress)) := by
  induction pages with
  | nil => intro prev h; exact h
  | cons page pages ih =>
    intro prev hprev
    rw [List.foldl_cons]
    apply ih
    constructor
    · intro k
      have h2 : (selStep prev page).2 = pairsIndexStep prev.2 (page.map convertToTokenData) := rfl
      have h1 : (selStep prev page).1 = prev.1 ++ page.map convertToTokenData := rfl
      rw [h2, h1, mem_alKeys_pairsIndexStep, hprev.1]
      simp
    · intro e he
      have h2 : (selStep prev page).2 = pairsIndexStep prev.2 (page.map convertToTokenData) := rfl
      have h1 : (selStep prev page).1 = prev.1 ++ page.map convertToTokenData := rfl
      rw [h2] at he
      rw [h1]
      rcases entries_pairsIndexStep (page.map convertToTokenData) prev.2 e he with h | h
      · have h3 := hprev.2 e h
        exact ⟨List.mem_append_left _ h3.1, h3.2⟩
      · exact ⟨List.mem_append_right _ h.1, h.2⟩

theorem selectData_fst_map_addr (pages : List (List ScannerResult)) :
    (selectData pages).1.map (fun t => t.pairAddress)
      = pages.flatten.map (fun r => r.pairAddress) := by
  rw [selectData_eq_foldl_selStep, foldl_selStep_fst]
  simp only [List.nil_append, List.map_flatten, List.map_map]
  congr 1
  apply List.map_congr_left
  intro page _
  simp [Function.comp, List.map_map, convertToTokenData]

theorem flatten_chunkArray {α : Type} (n : ℕ) (h : n ≠ 0) (l : List α) :
    (chunkArray n l).flatten = l := by
  induction l using chunkArray.induct n with
  | case1 => simp [chunkArray]
  | case2 x xs h2 => exact absurd h2 h
  | case3 x xs h2 ih => simp [chunkArray, h, ih, List.take_append_drop]

theorem processItemOpt_pairAddress (tickOpt : Option TickEventPayload)
    (statsOpt : Option PairStatsMsgData) (item : ScannerResult) :
    (processItemOpt tickOpt statsOpt item).pairAddress = item.pairAddress := by
  unfold processItemOpt
  cases tickOpt with
  | none =>
    cases statsOpt with
    | none => rfl
    | some u => simp [applyStats]
  | some t =>
    cases h : latestNonOutlierSwap t.swaps with
    | none => simp [h]
    | some ls =>
      simp only [h]
      by_cases hk : item.pairAddress ≠ t.pair.pair
      · simp [hk]
      · cases statsOpt with
        | none => simp [hk, applyTick]
        | some u => simp [hk, applyTick, applyStats]

theorem processUpdates_pairAddresses (s : MergeState) :
    (processUpdates s).pages.map (fun page => page.map (fun r => r.pairAddress))
      = s.pages.map (fun page => page.map (fun r => r.pairAddress)) := by
  unfold processUpdates
  simp only [List.map_map]
  apply List.map_congr_left
  intro page _
  simp only [Function.comp, List.map_map]
  apply List.map_congr_left
  intro item _
  exact processItemOpt_pairAddress _ _ item

/-- C7 (amended): after a fetch, the identity index of the selected data
contains exactly the identities of the flat ordered view, and every index
entry is one of the flat view rows keyed by its own pair address; the flat
view is duplicate-free exactly when the fetched pages as a whole repeat no
pair address; a merge preserves every row's pair address in place; and a
scanner reset rechunks the snapshot list without losing or adding rows. -/
theorem row_collection_index_invariant (pages : List (List ScannerResult)) :
    (∀ k, k ∈ alKeys (selectData pages).2
        ↔ k ∈ (selectData pages).1.map (fun t => t.pairAddress))
    ∧ (∀ e ∈ (selectData pages).2, e.2 ∈ (selectData pages).1 ∧ e.1 = e.2.pairAddress)
    ∧ (((selectData pages).1.map (fun t => t.pairAddress)).Nodup
        ↔ (pages.flatten.map (fun r => r.pairAddress)).Nodup)
    ∧ (∀ s : MergeState,
        (processUpdates s).pages.map (fun page => page.map (fun r => r.pairAddress))
          = s.pages.map (fun page => page.map (fun r => r.pairAddress)))
    ∧ (∀ l : List ScannerResult, (chunkArray 100 l).flatten = l) := by
  have hinv := foldl_selStep_invariant pages ([], []) (by simp [alKeys])
  rw [selectData_eq_foldl_selStep]
  refine ⟨hinv.1, hinv.2, ?_, processUpdates_pairAddresses, ?_⟩
  · rw [← selectData_eq_foldl_selStep, selectData_fst_map_addr]
  · intro l
    exact flatten_chunkArray 100 (by norm_num) l

/-- C7 counterexample: two fetched pages that both contain the sample row
produce a flat view with the same pair address twice — the no-duplicates
part of the claim is not enforced by the code. -/
theorem flat_view_can_duplicate :
    ¬ (((selectData [[sampleItem], [sampleItem]]).1.map (fun t => t.pairAddress)).Nodup) := by
  decide

/-! ## Scanner snapshot application (C6) -/

theorem processItem_empty (item : ScannerResult) :
    processItem [] [] item = item := rfl

theorem processUpdates_empty_buffers (pages : List (List ScannerResult)) :
    processUpdates { pages := pages, ticksStack := [], statsStack := [] }
      = { pages := pages, ticksStack := [], statsStack := [] } := by
  unfold processUpdates
  have hfun : processItem ([] : List (String × TickEventPayload))
      ([] : List (String × PairStatsMsgData)) = id := funext processItem_empty
  simp [hfun]

/-- C6 (amended): applying a scanner-level full snapshot replaces the
cached pages with the fresh list chunked into pages of 100 and clears both
pending buffers — a flush right after the snapshot changes no row, so no
pre-snapshot buffered update is ever applied — but it does NOT trigger the
reconcile operation: both subscription registries are left exactly as they
were. -/
theorem scanner_snapshot_clears_buffers_not_registry (st : TableState)
    (newPairs : List ScannerResult) :
    (onScannerTable st newPairs).pages = chunkArray 100 newPairs
    ∧ (onScannerTable st newPairs).ticksStack = []
    ∧ (onScannerTable st newPairs).statsStack = []
    ∧ (onScannerTable st newPairs).ticksReg = st.ticksReg
    ∧ (onScannerTable st newPairs).statsReg = st.statsReg
    ∧ processUpdates (mergeStateOf (onScannerTable st newPairs))
        = mergeStateOf (onScannerTable st newPairs) := by
  refine ⟨rfl, rfl, rfl, rfl, rfl, ?_⟩
  exact processUpdates_empty_buffers (chunkArray 100 newPairs)

/-- C6 counterexample: a stale tick-registry record for `0xdead` survives
the application of a scanner snapshot that does not contain that pair, so
the registry has not converged to the new collection membership — the
snapshot handler does not trigger reconcile. -/
theorem scanner_snapshot_does_not_reconcile :
    "0xdead" ∈ alKeys (onScannerTable sampleTableState [sampleItem]).ticksReg
    ∧ "0xdead" ∉ (selectData (onScannerTable sampleTableState [sampleItem]).pages).1.map
        (fun t => t.pairAddress) := by
  constructor
  · show "0xdead" ∈ alKeys sampleTableState.ticksReg
    decide
  · have hc : chunkArray 100 [sampleItem] = [[sampleItem]] := by
      simp [chunkArray]
    show "0xdead" ∉ (selectData (chunkArray 100 [sampleItem])).1.map (fun t => t.pairAddress)
    rw [hc]
    decide

/-! ## Subscription reconciliation (C3) -/

theorem unsubscribeFromPair_eq_alDelete : unsubscribeFromPair = alDelete := rfl

theorem unsubscribeFromPairStats_eq_alDelete : unsubscribeFromPairStats = alDelete := rfl

theorem mem_alKeys_foldl_alDelete {α : Type} (ks : List String) :
    ∀ (reg : List (String × α)) (k : String),
      k ∈ alKeys (ks.foldl alDelete reg) ↔ k ∈ alKeys reg ∧ k ∉ ks := by
  induction ks with
  | nil => simp
  | cons a ks ih =>
    intro reg k
    rw [List.foldl_cons, ih, mem_alKeys_alDelete]
    by_cases hk : k = a
    · simp [hk]
    · simp only [List.mem_cons, hk, false_or]
      tauto

theorem nodup_alKeys_foldl_alDelete {α : Type} (ks : List String) :
    ∀ (reg : List (String × α)), (alKeys reg).Nodup
      → (alKeys (ks.foldl alDelete reg)).Nodup := by
  induction ks with
  | nil => intro reg h; exact h
  | cons a ks ih =>
    intro reg h
    rw [List.foldl_cons]
    exact ih _ (nodup_alKeys_alDelete reg a h)

theorem mem_alKeys_subscribeToPair (reg : List (String × SubData)) (t : TokenData)
    (k : String) :
    k ∈ alKeys (subscribeToPair reg t) ↔ k = t.pairAddress ∨ k ∈ alKeys reg := by
  unfold subscribeToPair
  cases h : alHas reg t.pairAddress with
  | true =>
    simp only [h, if_true]
    constructor
    · exact Or.inr
    · rintro (rfl | hm)
      · exact (mem_alKeys_iff_alHas _ _).mpr h
      · exact hm
  | false =>
    simp only [h, Bool.false_eq_true, if_false]
    have e : alKeys (reg ++ [(t.pairAddress,
        { pair := t.pairAddress, token := t.tokenAddress, chain := t.chain })])
        = alKeys reg ++ [t.pairAddress] := by
      simp [alKeys]
    rw [e, List.mem_append, List.mem_singleton]
    tauto

theorem mem_alKeys_subscribeToPairStats (reg : List (String × SubData)) (t : TokenData)
    (k : String) :
    k ∈ alKeys (subscribeToPairStats reg t) ↔ k = t.pairAddress ∨ k ∈ alKeys reg := by
  unfold subscribeToPairStats
  cases h : alHas reg t.pairAddress with
  | true =>
    simp only [h, if_true]
    constructor
    · exact Or.inr
    · rintro (rfl | hm)
      · exact (mem_alKeys_iff_alHas _ _).mpr h
      · exact hm
  | false =>
    simp only [h, Bool.false_eq_true, if_false]
    have e : alKeys (reg ++ [(t.pairAddress,
        { pair := t.pairAddress, token := t.tokenAddress, chain := t.chain })])
        = alKeys reg ++ [t.pairAddress] := by
      simp [alKeys]
    rw [e, List.mem_append, List.mem_singleton]
    tauto

theorem nodup_alKeys_subscribeToPair (reg : List (String × SubData)) (t : TokenData)
    (h : (alKeys reg).Nodup) :
    (alKeys (subscribeToPair reg t)).Nodup := by
  unfold subscribeToPair
  cases hh : alHas reg t.pairAddress with
  | true => simpa [hh] using h
  | false =>
    simp only [hh, Bool.false_eq_true, if_false]
    have e : alKeys (reg ++ [(t.pairAddress,
        { pair := t.pairAddress, token := t.tokenAddress, chain := t.chain })])
        = alKeys reg ++ [t.pairAddress] := by
      simp [alKeys]
    rw [e, List.nodup_append]
    refine ⟨h, List.nodup_singleton _, ?_⟩
    intro a ha hb
    rw [List.mem_singleton] at hb
    subst hb
    rw [mem_alKeys_iff_alHas, hh] at ha
    exact Bool.false_ne_true ha

theorem nodup_alKeys_subscribeToPairStats (reg : List (String × SubData)) (t : TokenData)
    (h : (alKeys reg).Nodup) :
    (alKeys (subscribeToPairStats reg t)).Nodup := by
  unfold subscribeToPairStats
  cases hh : alHas reg t.pairAddress with
  | true => simpa [hh] using h
  | false =>
    simp only [hh, Bool.false_eq_true, if_false]
    have e : alKeys (reg ++ [(t.pairAddress,
        { pair := t.pairAddress, token := t.tokenAddress, chain := t.chain })])
        = alKeys reg ++ [t.pairAddress] := by
      simp [alKeys]
    rw [e, List.nodup_append]
    refine ⟨h, List.nodup_singleton _, ?_⟩
    intro a ha hb
    rw [List.mem_singleton] at hb
    subst hb
    rw [mem_alKeys_iff_alHas, hh] at ha
    exact Bool.false_ne_true ha

theorem reconcile_fold_spec (tokens : List TokenData) :
    ∀ init : List (String × SubData) × List (String × SubData),
      (∀ k, k ∈ alKeys (tokens.foldl
          (fun regs token =>
            ( if ¬ alHas regs.1 token.pairAddress then subscribeToPair regs.1 token
              else regs.1,
              if ¬ alHas regs.2 token.pairAddress then subscribeToPairStats regs.2 token
              else regs.2))
          init).1
        ↔ k ∈ alKeys init.1 ∨ k ∈ tokens.map (fun t => t.pairAddress))
      ∧ (∀ k, k ∈ alKeys (tokens.foldl
          (fun regs token =>
            ( if ¬ alHas regs.1 token.pairAddress then subscribeToPair regs.1 token
              else regs.1,
              if ¬ alHas regs.2 token.pairAddress then subscribeToPairStats regs.2 token
              else regs.2))
          init).2
        ↔ k ∈ alKeys init.2 ∨ k ∈ tokens.map (fun t => t.pairAddress))
      ∧ ((alKeys init.1).Nodup → (alKeys (tokens.foldl
          (fun regs token =>
            ( if ¬ alHas regs.1 token.pairAddress then subscribeToPair regs.1 token
              else regs.1,
              if ¬ alHas regs.2 token.pairAddress then subscribeToPairStats regs.2 token
              else regs.2))
          init).1).Nodup)
      ∧ ((alKeys init.2).Nodup → (alKeys (tokens.foldl
          (fun regs token =>
            ( if ¬ alHas regs.1 token.pairAddress then subscribeToPair regs.1 token
              else regs.1,
              if ¬ alHas regs.2 token.pairAddress then subscribeToPairStats regs.2 token
              else regs.2))
          init).2).Nodup) := by
  induction tokens with
  | nil => intro init; simp
  | cons t tokens ih =>
    intro init
    rw [List.foldl_cons]
    rcases ih
        ( if ¬ alHas init.1 t.pairAddress then subscribeToPair init.1 t else init.1,
          if ¬ alHas init.2 t.pairAddress then subscribeToPairStats init.2 t else init.2)
      with ⟨ihm1, ihm2, ihn1, ihn2⟩
    have hm1 : ∀ k,
        k ∈ alKeys (if ¬ alHas init.1 t.pairAddress then subscribeToPair init.1 t
          else init.1)
        ↔ k = t.pairAddress ∨ k ∈ alKeys init.1 := by
      intro k
      by_cases h : alHas init.1 t.pairAddress = true
      · simp only [h, not_true_eq_false, if_false]
        constructor
        · exact Or.inr
        · rintro (rfl | hm)
          · exact (mem_alKeys_iff_alHas _ _).mpr h
          · exact hm
      · simp only [h, not_false_eq_true, if_true]
        exact mem_alKeys_subscribeToPair init.1 t k
    have hm2 : ∀ k,
        k ∈ alKeys (if ¬ alHas init.2 t.pairAddress then subscribeToPairStats init.2 t
          else init.2)
        ↔ k = t.pairAddress ∨ k ∈ alKeys init.2 := by
      intro k
      by_cases h : alHas init.2 t.pairAddress = true
      · simp only [h, not_true_eq_false, if_false]
        constructor
        · exact Or.inr
        · rintro (rfl | hm)
          · exact (mem_alKeys_iff_alHas _ _).mpr h
          · exact hm
      · simp only [h, not_false_eq_true, if_true]
        exact mem_alKeys_subscribeToPairStats init.2 t k
    refine ⟨?_, ?_, ?_, ?_⟩
    · intro k
      rw [ihm1, hm1]
      simp only [List.map_cons, List.mem_cons]
      tauto
    · intro k
      rw [ihm2, hm2]
      simp only [List.map_cons, List.mem_cons]
      tauto
    · intro hn
      apply ihn1
      by_cases h : alHas init.1 t.pairAddress = true
      · simpa [h] using hn
      · simp only [h, not_false_eq_true, if_true]
        exact nodup_alKeys_subscribeToPair init.1 t hn
    · intro hn
      apply ihn2
      by_cases h : alHas init.2 t.pairAddress = true
      · simpa [h] using hn
      · simp only [h, not_false_eq_true, if_true]
        exact nodup_alKeys_subscribeToPairStats init.2 t hn

/-- C3: run against the current Row Collection (the selected pages), the
reconcile operation leaves the Subscription Registry with exactly one
record per (identity present in the flat view, kind) for both kinds —
every recorded identity absent from the collection removed, every present
identity recorded, keys duplicate-free. -/
theorem reconcile_registry_converges (pages : List (List ScannerResult))
    (ticksReg statsReg : List (String × SubData))
    (h1 : (alKeys ticksReg).Nodup) (h2 : (alKeys statsReg).Nodup) :
    (∀ k, k ∈ alKeys (reconcile ticksReg statsReg (selectData pages).1 (selectData pages).2).1
        ↔ k ∈ (selectData pages).1.map (fun t => t.pairAddress))
    ∧ (∀ k, k ∈ alKeys (reconcile ticksReg statsReg (selectData pages).1 (selectData pages).2).2
        ↔ k ∈ (selectData pages).1.map (fun t => t.pairAddress))
    ∧ (alKeys (reconcile ticksReg statsReg (selectData pages).1 (selectData pages).2).1).Nodup
    ∧ (alKeys (reconcile ticksReg statsReg (selectData pages).1 (selectData pages).2).2).Nodup := by
  have hidx : ∀ k, alHas (selectData pages).2 k = true
      ↔ k ∈ (selectData pages).1.map (fun t => t.pairAddress) := by
    intro k
    rw [← mem_alKeys_iff_alHas]
    have hinv := foldl_selStep_invariant pages ([], []) (by simp [alKeys])
    rw [selectData_eq_foldl_selStep]
    exact hinv.1 k
  have ht1 : ∀ k,
      k ∈ alKeys (((alKeys ticksReg).filter
          (fun k => ¬ alHas (selectData pages).2 k)).foldl unsubscribeFromPair ticksReg)
      ↔ k ∈ alKeys ticksReg ∧ alHas (selectData pages).2 k = true := by
    intro k
    rw [unsubscribeFromPair_eq_alDelete, mem_alKeys_foldl_alDelete]
    by_cases ha : alHas (selectData pages).2 k = true
    · simp [List.mem_filter, ha]
    · simp [List.mem_filter, ha]
  have ht2 : ∀ k,
      k ∈ alKeys (((alKeys statsReg).filter
          (fun k => ¬ alHas (selectData pages).2 k)).foldl unsubscribeFromPairStats statsReg)
      ↔ k ∈ alKeys statsReg ∧ alHas (selectData pages).2 k = true := by
    intro k
    rw [unsubscribeFromPairStats_eq_alDelete, mem_alKeys_foldl_alDelete]
    by_cases ha : alHas (selectData pages).2 k = true
    · simp [List.mem_filter, ha]
    · simp [List.mem_filter, ha]
  have hn1 : (alKeys (((alKeys ticksReg).filter
      (fun k => ¬ alHas (selectData pages).2 k)).foldl unsubscribeFromPair ticksReg)).Nodup := by
    rw [unsubscribeFromPair_eq_alDelete]
    exact nodup_alKeys_foldl_alDelete _ _ h1
  have hn2 : (alKeys (((alKeys statsReg).filter
      (fun k => ¬ alHas (selectData pages).2 k)).foldl unsubscribeFromPairStats statsReg)).Nodup := by
    rw [unsubscribeFromPairStats_eq_alDelete]
    exact nodup_alKeys_foldl_alDelete _ _ h2
  rcases reconcile_fold_spec (selectData pages).1
      ( ((alKeys ticksReg).filter
          (fun k => ¬ alHas (selectData pages).2 k)).foldl unsubscribeFromPair ticksReg,
        ((alKeys statsReg).filter
          (fun k => ¬ alHas (selectData pages).2 k)).foldl unsubscribeFromPairStats statsReg )
    with ⟨hs1, hs2, hsn1, hsn2⟩
  refine ⟨?_, ?_, ?_, ?_⟩
  · intro k
    unfold reconcile
    rw [hs1 k]
    constructor
    · rintro (hm | hm)
      · exact (hidx k).mp (ht1 k |>.mp hm).2
      · exact hm
    · exact Or.inr
  · intro k
    unfold reconcile
    rw [hs2 k]
    constructor
    · rintro (hm | hm)
      · exact (hidx k).mp (ht2 k |>.mp hm).2
      · exact hm
    · exact Or.inr
  · unfold reconcile
    exact hsn1 hn1
  · unfold reconcile
    exact hsn2 hn2

/-- C3 witness: reconciling a registry holding only a stale record for
`0xdead` against the one-row collection yields exactly the `0xabc` record
in both registries. -/
theorem reconcile_registry_converges_witness :
    (alKeys [("0xdead", staleSub)]).Nodup
    ∧ ((∀ k, k ∈ alKeys (reconcile [("0xdead", staleSub)] []
            (selectData [[sampleItem]]).1 (selectData [[sampleItem]]).2).1
          ↔ k ∈ (selectData [[sampleItem]]).1.map (fun t => t.pairAddress))
      ∧ (∀ k, k ∈ alKeys (reconcile [("0xdead", staleSub)] []
            (selectData [[sampleItem]]).1 (selectData [[sampleItem]]).2).2
          ↔ k ∈ (selectData [[sampleItem]]).1.map (fun t => t.pairAddress))
      ∧ (alKeys (reconcile [("0xdead", staleSub)] []
            (selectData [[sampleItem]]).1 (selectData [[sampleItem]]).2).1).Nodup
      ∧ (alKeys (reconcile [("0xdead", staleSub)] []
            (selectData [[sampleItem]]).1 (selectData [[sampleItem]]).2).2).Nodup) :=
  ⟨by decide,
    reconcile_registry_converges [[sampleItem]] [("0xdead", staleSub)] []
      (by decide) (by decide)⟩

/-! ## Transport: reconnection and subscription restoration (C8, C9) -/

theorem restore_foldl_sent (l : List (String × SubData)) :
    ∀ s1 : WsState, s1.socket = some SockReady.openR
      → (∀ e ∈ l, strStartsWith e.1 "pair-" = true)
      → l.foldl
          (fun acc e =>
            match restoreMsgFor e with
            | some m => sendMessage acc m
            | none => acc)
          s1
        = { s1 with sent := s1.sent ++ l.map (fun e => OutMsg.subscribePair e.2) } := by
  induction l with
  | nil =>
    intro s1 _ _
    simp
  | cons e l ih =>
    intro s1 hs hsub
    rw [List.foldl_cons]
    have he : restoreMsgFor e = some (OutMsg.subscribePair e.2) := by
      unfold restoreMsgFor
      rw [if_pos (hsub e (List.mem_cons_self e l))]
    have hsend : sendMessage s1 (OutMsg.subscribePair e.2)
        = { s1 with sent := s1.sent ++ [OutMsg.subscribePair e.2] } := by
      unfold sendMessage
      rw [if_pos hs]
    simp only [he, hsend]
    rw [ih { s1 with sent := s1.sent ++ [OutMsg.subscribePair e.2] } hs
      (fun e2 he2 => hsub e2 (List.mem_cons_of_mem e he2))]
    simp

theorem restoreSubscriptions_spec (s : WsState) (p : ScannerParams)
    (hs : s.socket = some SockReady.openR)
    (hp : s.lastScannerParams = some p)
    (hsub : ∀ e ∈ s.subscriptions, strStartsWith e.1 "pair-" = true) :
    restoreSubscriptions s
      = { s with sent := s.sent
            ++ OutMsg.scannerFilter p
              :: s.subscriptions.map (fun e => OutMsg.subscribePair e.2) } := by
  unfold restoreSubscriptions
  rw [if_neg (by simp [hs])]
  have hmatch : (match s.lastScannerParams with
      | some p2 => sendMessage s (OutMsg.scannerFilter p2)
      | none => s) = { s with sent := s.sent ++ [OutMsg.scannerFilter p] } := by
    rw [hp]
    show sendMessage s (OutMsg.scannerFilter p) = _
    unfold sendMessage
    rw [if_pos hs, hp]
  rw [hmatch]
  rw [restore_foldl_sent s.subscriptions
      { s with sent := s.sent ++ [OutMsg.scannerFilter p] } hs hsub]
  simp

/-- C8: after an unclean close (code other than 1000) the reconnect timer is
armed, and once the socket is open again the settle-delay callback invokes
the restore operation exactly once, re-sending the last-known scanner
filter plus one subscribe frame per recorded subscription (pair and
pair-stats records alike). -/
theorem reconnect_restores_once (s : WsState) (code : ℕ) (p : ScannerParams)
    (hcode : code ≠ 1000)
    (hp : s.lastScannerParams = some p)
    (hsub : ∀ e ∈ s.subscriptions, strStartsWith e.1 "pair-" = true) :
    (handleClose s code).reconnectTimeout = true
    ∧ (settleFire (handleOpen (reconnectTimerFire (handleClose s code) true))).restoreCount
        = s.restoreCount + 1
    ∧ (settleFire (handleOpen (reconnectTimerFire (handleClose s code) true))).sent
        = s.sent ++ OutMsg.scannerFilter p
            :: s.subscriptions.map (fun e => OutMsg.subscribePair e.2) := by
  have hs3 : handleOpen (reconnectTimerFire (handleClose s code) true)
      = { socket := some SockReady.openR, isConnected := true, isConnecting := false,
          reconnectTimeout := false, countdownInterval := false, reconnectCountdown := none,
          settlePending := true, backoffPending := s.backoffPending,
          subscriptions := s.subscriptions, lastScannerParams := s.lastScannerParams,
          sent := s.sent, restoreCount := s.restoreCount, lastCloseCode := some code } := by
    simp [handleClose, hcode, reconnectStart, clearReconnectTimers, reconnectTimerFire,
      handleOpen]
  have hx := restoreSubscriptions_spec
    { socket := some SockReady.openR, isConnected := true, isConnecting := false,
      reconnectTimeout := false, countdownInterval := false, reconnectCountdown := none,
      settlePending := false, backoffPending := s.backoffPending,
      subscriptions := s.subscriptions, lastScannerParams := s.lastScannerParams,
      sent := s.sent, restoreCount := s.restoreCount, lastCloseCode := some code }
    p rfl hp hsub
  refine ⟨by simp [handleClose, hcode, reconnectStart, clearReconnectTimers], ?_, ?_⟩
  · rw [hs3]
    show (restoreSubscriptions
        { socket := some SockReady.openR, isConnected := true, isConnecting := false,
          reconnectTimeout := false, countdownInterval := false, reconnectCountdown := none,
          settlePending := false, backoffPending := s.backoffPending,
          subscriptions := s.subscriptions, lastScannerParams := s.lastScannerParams,
          sent := s.sent, restoreCount := s.restoreCount,
          lastCloseCode := some code }).restoreCount + 1
      = s.restoreCount + 1
    rw [hx]
  · rw [hs3]
    show (restoreSubscriptions
        { socket := some SockReady.openR, isConnected := true, isConnecting := false,
          reconnectTimeout := false, countdownInterval := false, reconnectCountdown := none,
          settlePending := false, backoffPending := s.backoffPending,
          subscriptions := s.subscriptions, lastScannerParams := s.lastScannerParams,
          sent := s.sent, restoreCount := s.restoreCount,
          lastCloseCode := some code }).sent
      = s.sent ++ OutMsg.scannerFilter p
          :: s.subscriptions.map (fun e => OutMsg.subscribePair e.2)
    rw [hx]

/-- C8 witness: a concrete unclean close (code 1006) on the healthy open
transport with two recorded subscriptions and a last-known scanner filter. -/
theorem reconnect_restores_once_witness :
    (1006 : ℕ) ≠ 1000
    ∧ sampleWsState.lastScannerParams = some sampleParams
    ∧ ((handleClose sampleWsState 1006).reconnectTimeout = true
      ∧ (settleFire (handleOpen (reconnectTimerFire
            (handleClose sampleWsState 1006) true))).restoreCount
          = sampleWsState.restoreCount + 1
      ∧ (settleFire (handleOpen (reconnectTimerFire
            (handleClose sampleWsState 1006) true))).sent
          = sampleWsState.sent ++ OutMsg.scannerFilter sampleParams
              :: sampleWsState.subscriptions.map (fun e => OutMsg.subscribePair e.2)) :=
  ⟨by decide, rfl,
    reconnect_restores_once sampleWsState 1006 sampleParams (by decide) rfl (by decide)⟩

/-- C9: teardown does close an open socket with the clean-close code 1000
and clears both tracked reconnect timers, but the untracked backoff-retry
callback scheduled before teardown survives `disconnect`, and when it
fires it re-arms the countdown and reconnect timers and then constructs a
new connection — the no-dangling-callback part of the claim does not hold
of the code. -/
theorem teardown_leaves_backoff_alive :
    (disconnect sampleWsState).lastCloseCode = some 1000
    ∧ (disconnect sampleWsState).reconnectTimeout = false
    ∧ (disconnect sampleWsState).countdownInterval = false
    ∧ (disconnect sampleWsState).socket = none
    ∧ (disconnect wsAfterFailedConstruction).backoffPending = true
    ∧ (backoffFire (disconnect wsAfterFailedConstruction)).countdownInterval = true
    ∧ (backoffFire (disconnect wsAfterFailedConstruction)).reconnectTimeout = true
    ∧ (reconnectTimerFire (backoffFire (disconnect wsAfterFailedConstruction)) true).socket
        = some SockReady.connecting := by
  decide

end Dexcelerate
